import Mathlib

/-!
Shallow embedding of `starlark-dialect-build-targets/src/lib.rs`: the target
registry (`EnvironmentContext` with `register_target` and
`targets_to_resolve`), the recursive memoizing resolution algorithm
(`starlark_resolve_target`, `starlark_resolve_targets`), and the
resolved-artifact model (`RunMode`, `ResolvedTarget`, `ResolvedTarget.run`).

Modelling conventions:
- Starlark `Value`s are opaque to the engine; they are modelled as `Nat`.
- A target callable (`Target.callable`) is modelled as a pure function from
  the positional argument list to `Except ValueError Value`, mirroring the
  `callable.call(call_stack, type_values, args, ...)` invocation, whose
  keyword arguments are always empty here.
- `ValueError` keeps the `RuntimeError` variant built by this module; the
  `other` variant stands for the remaining error values a Starlark callable
  can raise, which this module only ever propagates.
- The in-place mutation of the `EnvironmentContext` behind `type_values` is
  modelled by explicit state passing: the resolver returns the updated
  context beside its `ValueResult`.
- Rust recursion is unguarded (cyclic dependencies overflow the stack); the
  Lean model takes a fuel parameter and returns `Option`, with `none`
  meaning the recursion budget was exhausted.
- Each resolver result also carries a trace of callable invocations
  `(target name, argument list)` in invocation order. The trace is pure
  instrumentation used to state invocation-count properties; it does not
  influence the value or context components.
- `BTreeMap<String, Target>` is modelled as an association list with
  unique keys accessed only through `findTarget` / `insertTarget` /
  `setResolvedValue`, matching the `get` / `get_mut` / `insert` calls used
  by the source.
- The `logger` field and the `warn!` calls are omitted: they only log.
- `ResolvedTarget.run` spawns a child process; the operating system is
  modelled by an oracle mapping (program path, working directory) to the
  spawn outcome: `Except.error` is an io error from `status()`,
  `Except.ok b` reports whether the exit status was a success. The outer
  `Option` in the result of `run` models divergence: `none` is the panic
  from `path.parent().unwrap()` when the path has no parent.
-/

namespace StarlarkBuildTargets

/-- Starlark values are opaque to this module; model them as `Nat`. -/
abbrev Value := Nat

/-- The `RuntimeError` payload from `starlark::values::error`. -/
structure RuntimeError where
  code : String
  message : String
  label : String
deriving DecidableEq

/-- The `ValueError` type of the Starlark crate, restricted to the variants
this module constructs (`runtime`, `incorrectParameterType`) plus an opaque
stand-in (`other`) for every error a script-supplied callable can raise. -/
inductive ValueError where
  | runtime (e : RuntimeError)
  | incorrectParameterType
  | other (n : Nat)
deriving DecidableEq

/-- A filesystem path: `absolute` says whether it starts with the root, and
`components` are the normal path components. -/
structure PathBuf where
  absolute : Bool
  components : List String
deriving DecidableEq

/-- `std::path::Path::parent`: `none` exactly for a root path or the empty
path (no components), otherwise the path with the last component dropped. -/
def PathBuf.parent (p : PathBuf) : Option PathBuf :=
  match p.components with
  | [] => none
  | _ :: _ => some ⟨p.absolute, p.components.dropLast⟩

/-- How a resolved target can be run (`RunMode` in the source). -/
inductive RunMode where
  | none
  | path (path : PathBuf)

/-- Represents a resolved target (`ResolvedTarget` in the source). -/
structure ResolvedTarget where
  run_mode : RunMode
  output_path : PathBuf

/-- The `anyhow::Error` values `ResolvedTarget.run` can produce: an io error
propagated from `status()`, or a message error built by `anyhow`. -/
inductive AnyhowError where
  | ioError (code : Nat)
  | message (s : String)
deriving DecidableEq

/-- Models the operating system behaviour of `std::process::Command`: given
the program path and the working directory, spawning yields an io error
(`Except.error`) or the information whether the exit status was successful
(`Except.ok`). -/
abbrev ProcessOracle := PathBuf → PathBuf → Except Nat Bool

/-- `ResolvedTarget::run`. The outer `Option` models partiality: `none` is
the panic from `path.parent().unwrap()` on a path without parent; `some`
carries the `Result<()>` of the Rust function. -/
def ResolvedTarget.run (os : ProcessOracle) (t : ResolvedTarget) :
    Option (Except AnyhowError Unit) :=
  match t.run_mode with
  | RunMode.none => some (Except.ok ())
  | RunMode.path p =>
    match p.parent with
    | Option.none => none
    | some dir =>
      match os p dir with
      | Except.error e => some (Except.error (AnyhowError.ioError e))
      | Except.ok true => some (Except.ok ())
      | Except.ok false => some (Except.error (AnyhowError.message "cargo run failed"))

/-- A registered target (`Target` in the source). -/
structure Target where
  callable : List Value → Except ValueError Value
  depends : List String
  resolved_value : Option Value
  built_target : Option ResolvedTarget

/-- The `BTreeMap<String, Target>` of registered targets, as an association
list with unique keys. -/
abbrev Targets := List (String × Target)

/-- Map lookup (`BTreeMap::get`). -/
def findTarget : Targets → String → Option Target
  | [], _ => none
  | (k, t) :: rest, name => if k = name then some t else findTarget rest name

/-- Map key membership (`BTreeMap::contains_key`). -/
def containsTarget (ts : Targets) (name : String) : Bool :=
  (findTarget ts name).isSome

/-- Map insertion (`BTreeMap::insert`): replaces the entry under an existing
key, otherwise adds a new entry. -/
def insertTarget : Targets → String → Target → Targets
  | [], name, t => [(name, t)]
  | (k, t0) :: rest, name, t =>
    if k = name then (k, t) :: rest else (k, t0) :: insertTarget rest name t

/-- The write-back `target_entry.resolved_value = Some(res)` done through
`get_mut`: sets the `resolved_value` of the entry under `name` and leaves
the map unchanged when `name` is absent. -/
def setResolvedValue : Targets → String → Value → Targets
  | [], _, _ => []
  | (k, t) :: rest, name, v =>
    if k = name then (k, { t with resolved_value := some v }) :: rest
    else (k, t) :: setResolvedValue rest name v

/-- Execution context for the Starlark environment (`EnvironmentContext`),
without its logger (which only logs). -/
structure EnvironmentContext where
  targets : Targets
  targets_order : List String
  default_target : Option String
  resolve_targets : Option (List String)
  default_build_script_target : Option String
  build_script_mode : Bool

/-- `EnvironmentContext::register_target`. -/
def register_target (ctx : EnvironmentContext) (target : String)
    (callable : List Value → Except ValueError Value) (depends : List String)
    (default : Bool) (default_build_script : Bool) : EnvironmentContext :=
  let order :=
    if containsTarget ctx.targets target then ctx.targets_order
    else ctx.targets_order ++ [target]
  let targets :=
    insertTarget ctx.targets target
      { callable := callable
        depends := depends
        resolved_value := none
        built_target := none }
  let dt :=
    if default || ctx.default_target.isNone then some target else ctx.default_target
  let dbst :=
    if default_build_script || ctx.default_build_script_target.isNone then some target
    else ctx.default_build_script_target
  { ctx with
      targets := targets
      targets_order := order
      default_target := dt
      default_build_script_target := dbst }

/-- `EnvironmentContext::targets_to_resolve`. -/
def targets_to_resolve (ctx : EnvironmentContext) : List String :=
  match ctx.resolve_targets with
  | some targets => targets
  | none =>
    match ctx.build_script_mode, ctx.default_build_script_target with
    | true, some t => [t]
    | _, _ =>
      match ctx.default_target with
      | some t => [t]
      | none => []

/-- The `RuntimeError` raised by `starlark_resolve_target` for an unknown
target name. -/
def targetNotFoundError (target : String) : ValueError :=
  ValueError.runtime
    { code := "BUILD_TARGETS"
      message := "target " ++ target ++ " does not exist"
      label := "resolve_target()" }

/-- One callable invocation: the target name and the positional arguments. -/
abbrev StepCall := String × List Value

/-- Result of one resolver call: the `ValueResult`, the updated context, and
the trace of callable invocations performed. -/
abbrev ResolveOutcome := Except ValueError Value × EnvironmentContext × List StepCall

/-- The dependency loop of `starlark_resolve_target`: resolve each entry of
`depends` in listed order with the resolver `r`, threading the context and
collecting the resolved values into the positional argument list; the first
failure (or exhausted budget) aborts the loop, as the `?` in the source. -/
def resolveDepsWith (r : EnvironmentContext → String → Option ResolveOutcome) :
    EnvironmentContext → List String →
    Option (Except ValueError (List Value) × EnvironmentContext × List StepCall)
  | ctx, [] => some (Except.ok [], ctx, [])
  | ctx, d :: ds =>
    match r ctx d with
    | Option.none => none
    | some (Except.error e, ctx1, tr) => some (Except.error e, ctx1, tr)
    | some (Except.ok v, ctx1, tr) =>
      match resolveDepsWith r ctx1 ds with
      | Option.none => none
      | some (Except.error e, ctx2, tr2) => some (Except.error e, ctx2, tr ++ tr2)
      | some (Except.ok vs, ctx2, tr2) => some (Except.ok (v :: vs), ctx2, tr ++ tr2)

/-- `starlark_resolve_target(type_values, call_stack, target)` with explicit
state passing and a fuel budget: look the target up (failing with the
`BUILD_TARGETS` runtime error when absent), return the cached
`resolved_value` when set, otherwise resolve the dependencies in order,
invoke the callable on the collected arguments, and on success write the
result back as the `resolved_value` of the target. -/
def starlark_resolve_target : Nat → EnvironmentContext → String → Option ResolveOutcome
  | 0, _, _ => none
  | fuel + 1, ctx, target =>
    match findTarget ctx.targets target with
    | Option.none => some (Except.error (targetNotFoundError target), ctx, [])
    | some t =>
      match t.resolved_value with
      | some v => some (Except.ok v, ctx, [])
      | Option.none =>
        match resolveDepsWith (starlark_resolve_target fuel) ctx t.depends with
        | Option.none => none
        | some (Except.error e, ctx1, tr) => some (Except.error e, ctx1, tr)
        | some (Except.ok args, ctx1, tr) =>
          match t.callable args with
          | Except.error e => some (Except.error e, ctx1, tr ++ [(target, args)])
          | Except.ok res =>
            some (Except.ok res,
              { ctx1 with targets := setResolvedValue ctx1.targets target res },
              tr ++ [(target, args)])

/-- The loop of `starlark_resolve_targets`: call the resolver on each listed
name in order, stopping at the first failure (the `?` in the source). -/
def starlark_resolve_targets_go (fuel : Nat) :
    EnvironmentContext → List String →
    Option (Except ValueError Unit × EnvironmentContext × List StepCall)
  | ctx, [] => some (Except.ok (), ctx, [])
  | ctx, n :: ns =>
    match starlark_resolve_target fuel ctx n with
    | Option.none => none
    | some (Except.error e, ctx1, tr) => some (Except.error e, ctx1, tr)
    | some (Except.ok _, ctx1, tr) =>
      match starlark_resolve_targets_go fuel ctx1 ns with
      | Option.none => none
      | some (r, ctx2, tr2) => some (r, ctx2, tr ++ tr2)

/-- `starlark_resolve_targets(type_values, call_stack)`: resolve every name
produced by `targets_to_resolve`, in list order. -/
def starlark_resolve_targets (fuel : Nat) (ctx : EnvironmentContext) :
    Option (Except ValueError Unit × EnvironmentContext × List StepCall) :=
  starlark_resolve_targets_go fuel ctx (targets_to_resolve ctx)

/-- How a map entry can change across a resolver call: it stays as it is, or
its unset `resolved_value` gets filled in. In particular no entry is added,
removed, or has its callable or dependency list changed, and a set
`resolved_value` is never changed again. -/
def entryEvolves (o o' : Option Target) : Prop :=
  o' = o ∨ ∃ t v, o = some t ∧ t.resolved_value = none ∧
    o' = some { t with resolved_value := some v }

def ctxC3 : EnvironmentContext :=
  { targets := []
    targets_order := []
    default_target := none
    resolve_targets := none
    default_build_script_target := none
    build_script_mode := false }

def stepC3 : List Value → Except ValueError Value := fun _ => Except.ok 0

def ctxC4a : EnvironmentContext :=
  { targets := [], targets_order := [], default_target := some "dt"
    resolve_targets := some ["e1", "e2"], default_build_script_target := some "bsr"
    build_script_mode := true }

def ctxC4b : EnvironmentContext :=
  { targets := [], targets_order := [], default_target := some "dt"
    resolve_targets := none, default_build_script_target := some "bsr"
    build_script_mode := true }

def ctxC4c : EnvironmentContext :=
  { targets := [], targets_order := [], default_target := some "dt"
    resolve_targets := none, default_build_script_target := some "bsr"
    build_script_mode := false }

def ctxC4d : EnvironmentContext :=
  { targets := [], targets_order := [], default_target := none
    resolve_targets := none, default_build_script_target := none
    build_script_mode := false }

def ctxC6 : EnvironmentContext :=
  { targets := [], targets_order := [], default_target := none
    resolve_targets := none, default_build_script_target := none
    build_script_mode := false }

def stepC8old : List Value → Except ValueError Value := fun _ => Except.ok 1

def ctxC8 : EnvironmentContext :=
  { targets := [("old", ⟨stepC8old, [], some 9, none⟩)]
    targets_order := ["old"]
    default_target := some "old"
    resolve_targets := none
    default_build_script_target := some "old"
    build_script_mode := false }

def stepC8 : List Value → Except ValueError Value := fun _ => Except.ok 2

def osC9 : ProcessOracle := fun _ _ => Except.ok false

def osC10 : ProcessOracle := fun _ _ => Except.ok true

def stepFailC2 : List Value → Except ValueError Value :=
  fun _ => Except.error (ValueError.other 7)

def ctxC2 : EnvironmentContext :=
  { targets := [("a", ⟨stepFailC2, [], none, none⟩), ("b", ⟨stepFailC2, [], none, none⟩)]
    targets_order := ["a", "b"]
    default_target := some "a"
    resolve_targets := none
    default_build_script_target := some "a"
    build_script_mode := false }

def stepC5a : List Value → Except ValueError Value := fun args => Except.ok (args.sum + 100)

def stepC5b : List Value → Except ValueError Value := fun _ => Except.ok 3

def ctxC5 : EnvironmentContext :=
  { targets := [("a", ⟨stepC5a, ["b"], none, none⟩), ("b", ⟨stepC5b, [], none, none⟩)]
    targets_order := ["a", "b"]
    default_target := some "a"
    resolve_targets := none
    default_build_script_target := some "a"
    build_script_mode := false }

def stepC1a : List Value → Except ValueError Value := fun args => Except.ok (args.sum + 10)

def stepC1b : List Value → Except ValueError Value := fun _ => Except.ok 5

def stepC1c : List Value → Except ValueError Value := fun args => Except.ok (args.sum + 20)

def ctxC1 : EnvironmentContext :=
  { targets := [("a", ⟨stepC1a, ["b"], none, none⟩), ("b", ⟨stepC1b, [], none, none⟩),
      ("c", ⟨stepC1c, ["b"], none, none⟩)]
    targets_order := ["a", "b", "c"]
    default_target := some "a"
    resolve_targets := none
    default_build_script_target := some "a"
    build_script_mode := false }

def ctxC1cached : EnvironmentContext :=
  { targets := [("x", ⟨stepC1b, ["b"], some 9, none⟩)]
    targets_order := ["x"]
    default_target := some "x"
    resolve_targets := none
    default_build_script_target := some "x"
    build_script_mode := false }

def stepC7good : List Value → Except ValueError Value := fun _ => Except.ok 4

def stepC7bad : List Value → Except ValueError Value :=
  fun _ => Except.error (ValueError.other 3)

def ctxC7 : EnvironmentContext :=
  { targets := [("bad", ⟨stepC7bad, [], none, none⟩), ("good", ⟨stepC7good, [], none, none⟩)]
    targets_order := ["bad", "good"]
    default_target := some "bad"
    resolve_targets := some ["bad", "good"]
    default_build_script_target := some "bad"
    build_script_mode := false }

def ctxC7ok : EnvironmentContext :=
  { targets := [("good", ⟨stepC7good, [], none, none⟩)]
    targets_order := ["good"]
    default_target := some "good"
    resolve_targets := none
    default_build_script_target := some "good"
    build_script_mode := false }

/-! Helper lemmas about the map operations. -/

theorem findTarget_insertTarget_self (ts : Targets) (name : String) (t : Target) :
    findTarget (insertTarget ts name t) name = some t := by
  induction ts with
  | nil => simp [insertTarget, findTarget]
  | cons p rest ih =>
    obtain ⟨k, t0⟩ := p
    by_cases h : k = name <;> simp [insertTarget, findTarget, h, ih]

theorem findTarget_insertTarget_ne (ts : Targets) (name m : String) (t : Target)
    (h : m ≠ name) :
    findTarget (insertTarget ts name t) m = findTarget ts m := by
  induction ts with
  | nil => simp [insertTarget, findTarget, Ne.symm h]
  | cons p rest ih =>
    obtain ⟨k, t0⟩ := p
    by_cases hk : k = name
    · subst hk
      simp [insertTarget, findTarget, Ne.symm h]
    · simp [insertTarget, findTarget, hk, ih]

theorem findTarget_setResolvedValue_self (ts : Targets) (name : String) (v : Value) :
    findTarget (setResolvedValue ts name v) name =
      (findTarget ts name).map fun t => { t with resolved_value := some v } := by
  induction ts with
  | nil => simp [setResolvedValue, findTarget]
  | cons p rest ih =>
    obtain ⟨k, t⟩ := p
    by_cases h : k = name <;> simp [setResolvedValue, findTarget, h, ih]

theorem findTarget_setResolvedValue_ne (ts : Targets) (name m : String) (v : Value)
    (h : m ≠ name) :
    findTarget (setResolvedValue ts name v) m = findTarget ts m := by
  induction ts with
  | nil => simp [setResolvedValue]
  | cons p rest ih =>
    obtain ⟨k, t⟩ := p
    by_cases hk : k = name
    · subst hk
      simp [setResolvedValue, findTarget, Ne.symm h]
    · simp [setResolvedValue, findTarget, hk, ih]

/-! Monotonicity of the resolver on registry entries: an entry is only ever
changed by filling in a previously unset `resolved_value`. -/

theorem entryEvolves_refl (o : Option Target) : entryEvolves o o := Or.inl rfl

theorem entryEvolves_trans {o o' o'' : Option Target}
    (h1 : entryEvolves o o') (h2 : entryEvolves o' o'') : entryEvolves o o'' := by
  rcases h2 with h2 | ⟨t, v, ho', hrv, ho''⟩
  · exact h2 ▸ h1
  · rcases h1 with h1 | ⟨t0, v0, ho, hrv0, ho'0⟩
    · exact Or.inr ⟨t, v, h1 ▸ ho', hrv, ho''⟩
    · rw [ho'0] at ho'
      have ht : t = { t0 with resolved_value := some v0 } := Option.some.inj ho'.symm
      rw [ht] at hrv
      simp at hrv

/-- A cached entry is frozen: if its `resolved_value` is set, evolution
keeps the entry exactly as it is. -/
theorem entryEvolves_frozen {t : Target} {o' : Option Target} {v : Value}
    (h : entryEvolves (some t) o') (hrv : t.resolved_value = some v) : o' = some t := by
  rcases h with h | ⟨t0, v0, ho, hrv0, ho'⟩
  · exact h
  · have ht : t = t0 := Option.some.inj ho
    rw [← ht, hrv] at hrv0
    simp at hrv0

theorem resolveDepsWith_entryEvolves
    (r : EnvironmentContext → String → Option ResolveOutcome)
    (hr : ∀ ctx name res ctx' tr, r ctx name = some (res, ctx', tr) →
      ∀ m, entryEvolves (findTarget ctx.targets m) (findTarget ctx'.targets m)) :
    ∀ deps ctx res ctx' tr,
      resolveDepsWith r ctx deps = some (res, ctx', tr) →
      ∀ m, entryEvolves (findTarget ctx.targets m) (findTarget ctx'.targets m) := by
  intro deps
  induction deps with
  | nil =>
    intro ctx res ctx' tr h m
    simp only [resolveDepsWith, Option.some.injEq, Prod.mk.injEq] at h
    obtain ⟨-, rfl, -⟩ := h
    exact entryEvolves_refl _
  | cons d ds ih =>
    intro ctx res ctx' tr h m
    simp only [resolveDepsWith] at h
    split at h
    · exact Option.noConfusion h
    · rename_i e ctx1 tr1 hd
      simp only [Option.some.injEq, Prod.mk.injEq] at h
      obtain ⟨-, rfl, -⟩ := h
      exact hr ctx d _ _ _ hd m
    · rename_i v ctx1 tr1 hd
      have h1 := hr ctx d _ _ _ hd m
      split at h
      · exact Option.noConfusion h
      · rename_i e ctx2 tr2 hds
        simp only [Option.some.injEq, Prod.mk.injEq] at h
        obtain ⟨-, rfl, -⟩ := h
        exact entryEvolves_trans h1 (ih ctx1 _ _ _ hds m)
      · rename_i vs ctx2 tr2 hds
        simp only [Option.some.injEq, Prod.mk.injEq] at h
        obtain ⟨-, rfl, -⟩ := h
        exact entryEvolves_trans h1 (ih ctx1 _ _ _ hds m)

theorem starlark_resolve_target_entryEvolves :
    ∀ fuel ctx name res ctx' tr,
      starlark_resolve_target fuel ctx name = some (res, ctx', tr) →
      ∀ m, entryEvolves (findTarget ctx.targets m) (findTarget ctx'.targets m) := by
  intro fuel
  induction fuel with
  | zero =>
    intro ctx name res ctx' tr h
    exact Option.noConfusion h
  | succ fuel ih =>
    intro ctx name res ctx' tr h m
    simp only [starlark_resolve_target] at h
    split at h
    · simp only [Option.some.injEq, Prod.mk.injEq] at h
      obtain ⟨-, rfl, -⟩ := h
      exact entryEvolves_refl _
    · rename_i t hf
      split at h
      · simp only [Option.some.injEq, Prod.mk.injEq] at h
        obtain ⟨-, rfl, -⟩ := h
        exact entryEvolves_refl _
      · rename_i hrv
        split at h
        · exact Option.noConfusion h
        · rename_i e ctx1 tr1 hdeps
          simp only [Option.some.injEq, Prod.mk.injEq] at h
          obtain ⟨-, rfl, -⟩ := h
          exact resolveDepsWith_entryEvolves _ ih t.depends ctx _ _ _ hdeps m
        · rename_i args ctx1 tr1 hdeps
          have hds := resolveDepsWith_entryEvolves _ ih t.depends ctx _ _ _ hdeps
          split at h
          · simp only [Option.some.injEq, Prod.mk.injEq] at h
            obtain ⟨-, rfl, -⟩ := h
            exact hds m
          · rename_i res2 hc
            simp only [Option.some.injEq, Prod.mk.injEq] at h
            obtain ⟨-, rfl, -⟩ := h
            by_cases hm : m = name
            · subst hm
              refine Or.inr ⟨t, res2, hf, hrv, ?_⟩
              show findTarget (setResolvedValue ctx1.targets m res2) m =
                some { t with resolved_value := some res2 }
              rw [findTarget_setResolvedValue_self]
              rcases hds m with h1 | ⟨t1, v1, h1, hrv1, h1'⟩
              · rw [h1, hf]
                rfl
              · rw [hf] at h1
                obtain rfl := Option.some.inj h1
                rw [h1']
                rfl
            · show entryEvolves (findTarget ctx.targets m)
                (findTarget (setResolvedValue ctx1.targets name res2) m)
              rw [findTarget_setResolvedValue_ne _ _ _ _ hm]
              exact hds m

theorem starlark_resolve_targets_go_entryEvolves :
    ∀ names fuel ctx res ctx' tr,
      starlark_resolve_targets_go fuel ctx names = some (res, ctx', tr) →
      ∀ m, entryEvolves (findTarget ctx.targets m) (findTarget ctx'.targets m) := by
  intro names
  induction names with
  | nil =>
    intro fuel ctx res ctx' tr h m
    simp only [starlark_resolve_targets_go, Option.some.injEq, Prod.mk.injEq] at h
    obtain ⟨-, rfl, -⟩ := h
    exact entryEvolves_refl _
  | cons n ns ih =>
    intro fuel ctx res ctx' tr h m
    simp only [starlark_resolve_targets_go] at h
    split at h
    · exact Option.noConfusion h
    · rename_i e ctx1 tr1 hn
      simp only [Option.some.injEq, Prod.mk.injEq] at h
      obtain ⟨-, rfl, -⟩ := h
      exact starlark_resolve_target_entryEvolves fuel ctx n _ _ _ hn m
    · rename_i v ctx1 tr1 hn
      have h1 := starlark_resolve_target_entryEvolves fuel ctx n _ _ _ hn m
      split at h
      · exact Option.noConfusion h
      · rename_i r2 ctx2 tr2 hns
        simp only [Option.some.injEq, Prod.mk.injEq] at h
        obtain ⟨-, rfl, -⟩ := h
        exact entryEvolves_trans h1 (ih fuel ctx1 _ _ _ hns m)

/-- A successful resolver call leaves the target cached with the returned
value. -/
theorem starlark_resolve_target_ok_cached :
    ∀ fuel ctx name v ctx' tr,
      starlark_resolve_target fuel ctx name = some (Except.ok v, ctx', tr) →
      ∃ t, findTarget ctx'.targets name = some t ∧ t.resolved_value = some v := by
  intro fuel ctx name v ctx' tr h
  cases fuel with
  | zero => exact Option.noConfusion h
  | succ fuel =>
    simp only [starlark_resolve_target] at h
    split at h
    · simp at h
    · rename_i t hf
      split at h
      · rename_i w hrv
        simp only [Option.some.injEq, Prod.mk.injEq, Except.ok.injEq] at h
        obtain ⟨rfl, rfl, -⟩ := h
        exact ⟨t, hf, hrv⟩
      · rename_i hrv
        split at h
        · exact Option.noConfusion h
        · simp at h
        · rename_i args ctx1 tr1 hdeps
          have hds := resolveDepsWith_entryEvolves _
            (starlark_resolve_target_entryEvolves fuel) t.depends ctx _ _ _ hdeps
          split at h
          · simp at h
          · rename_i res2 hc
            simp only [Option.some.injEq, Prod.mk.injEq, Except.ok.injEq] at h
            obtain ⟨rfl, rfl, -⟩ := h
            refine ⟨{ t with resolved_value := some res2 }, ?_, rfl⟩
            show findTarget (setResolvedValue ctx1.targets name res2) name =
              some { t with resolved_value := some res2 }
            rw [findTarget_setResolvedValue_self]
            rcases hds name with h1 | ⟨t1, v1, h1, hrv1, h1'⟩
            · rw [h1, hf]
              rfl
            · rw [hf] at h1
              obtain rfl := Option.some.inj h1
              rw [h1']
              rfl

/-! Claim theorems. -/

/-- C3: for both default fields independently, registering with the flag set
makes the target the default (overriding any prior default); registering any
target while the default is unset also makes it the default; registering
with the flag unset while a default is set leaves the default unchanged.
The first conjunct characterises one `register_target` call for both fields
(the three scenario bullets are exactly its three cases); the second is the
x/y/z scenario of the specification. -/
theorem register_target_default_selection :
    (∀ ctx name callable depends (d dbs : Bool),
       (register_target ctx name callable depends d dbs).default_target =
         (if d || ctx.default_target.isNone then some name else ctx.default_target) ∧
       (register_target ctx name callable depends d dbs).default_build_script_target =
         (if dbs || ctx.default_build_script_target.isNone then some name
          else ctx.default_build_script_target)) ∧
    (∀ ctx cx cy cz, ctx.default_target = none →
       (register_target (register_target (register_target ctx "x" cx [] false false)
           "y" cy [] true false) "z" cz [] false false).default_target = some "y") := by
  constructor
  · intro ctx name callable depends d dbs
    exact ⟨rfl, rfl⟩
  · intro ctx cx cy cz h
    simp [register_target, h]

/-- Witness for C3 at a concrete context: the x/y/z scenario. -/
theorem register_target_default_selection_witness :
    (register_target (register_target (register_target ctxC3 "x" stepC3 [] false false)
        "y" stepC3 [] true false) "z" stepC3 [] false false).default_target = some "y" :=
  register_target_default_selection.2 ctxC3 stepC3 stepC3 stepC3 rfl

/-- C4: `targets_to_resolve` is a pure function of the context returning the
explicit resolve list when set; otherwise the single default build-script
target when build-script mode is on and that target is set (regardless of
`default_target`); otherwise the single default target when set; otherwise
the empty list. -/
theorem targets_to_resolve_spec :
    (∀ ctx ts, ctx.resolve_targets = some ts → targets_to_resolve ctx = ts) ∧
    (∀ ctx t, ctx.resolve_targets = none → ctx.build_script_mode = true →
       ctx.default_build_script_target = some t → targets_to_resolve ctx = [t]) ∧
    (∀ ctx t, ctx.resolve_targets = none →
       (ctx.build_script_mode = false ∨ ctx.default_build_script_target = none) →
       ctx.default_target = some t → targets_to_resolve ctx = [t]) ∧
    (∀ ctx, ctx.resolve_targets = none →
       (ctx.build_script_mode = false ∨ ctx.default_build_script_target = none) →
       ctx.default_target = none → targets_to_resolve ctx = []) := by
  refine ⟨?_, ?_, ?_, ?_⟩
  · intro ctx ts h
    simp [targets_to_resolve, h]
  · intro ctx t h1 h2 h3
    simp [targets_to_resolve, h1, h2, h3]
  · intro ctx t h1 h2 h3
    rcases h2 with h2 | h2 <;> simp [targets_to_resolve, h1, h2, h3]
  · intro ctx h1 h2 h3
    rcases h2 with h2 | h2 <;> simp [targets_to_resolve, h1, h2, h3]

/-- Witness for C4: one concrete context per precedence case; in the second,
`default_build_script_target` wins over a differing `default_target`. -/
theorem targets_to_resolve_spec_witness :
    targets_to_resolve ctxC4a = ["e1", "e2"] ∧
    targets_to_resolve ctxC4b = ["bsr"] ∧
    targets_to_resolve ctxC4c = ["dt"] ∧
    targets_to_resolve ctxC4d = [] :=
  ⟨targets_to_resolve_spec.1 ctxC4a _ rfl,
   targets_to_resolve_spec.2.1 ctxC4b "bsr" rfl rfl rfl,
   targets_to_resolve_spec.2.2.1 ctxC4c "dt" rfl (Or.inl rfl) rfl,
   targets_to_resolve_spec.2.2.2 ctxC4d rfl (Or.inl rfl) rfl⟩

/-- C6: resolving a name absent from the registry fails with the
`BUILD_TARGETS` runtime error whose message carries the name
(`targetNotFoundError`), and returns the context unchanged with no callable
invoked. -/
theorem resolve_target_not_found (fuel : Nat) (ctx : EnvironmentContext) (name : String)
    (h : findTarget ctx.targets name = none) :
    starlark_resolve_target (fuel + 1) ctx name =
      some (Except.error (targetNotFoundError name), ctx, []) := by
  simp [starlark_resolve_target, h]

/-- Witness for C6: resolving "nope" in an empty registry. -/
theorem resolve_target_not_found_witness :
    starlark_resolve_target 1 ctxC6 "nope" =
      some (Except.error (targetNotFoundError "nope"), ctxC6, []) :=
  resolve_target_not_found 0 ctxC6 "nope" rfl

/-- C8: `register_target` is total; it installs a fresh `Target` under the
name with `resolved_value` and `built_target` unset (so re-registration
clears any cached resolution); it appends the name to the registration
order exactly when the name was not registered before; and re-registration
keeps the order free of duplicates. -/
theorem register_target_spec :
    (∀ ctx name callable depends (d dbs : Bool),
       findTarget (register_target ctx name callable depends d dbs).targets name =
         some { callable := callable, depends := depends, resolved_value := none,
                built_target := none }) ∧
    (∀ ctx name callable depends (d dbs : Bool),
       (register_target ctx name callable depends d dbs).targets_order =
         (if containsTarget ctx.targets name then ctx.targets_order
          else ctx.targets_order ++ [name])) ∧
    (∀ ctx name callable depends (d dbs : Bool),
       ctx.targets_order.Nodup →
       (∀ m, m ∈ ctx.targets_order ↔ containsTarget ctx.targets m = true) →
       (register_target ctx name callable depends d dbs).targets_order.Nodup) := by
  refine ⟨?_, ?_, ?_⟩
  · intro ctx name callable depends d dbs
    exact findTarget_insertTarget_self ctx.targets name _
  · intro ctx name callable depends d dbs
    rfl
  · intro ctx name callable depends d dbs hnodup hiff
    show (if containsTarget ctx.targets name then ctx.targets_order
      else ctx.targets_order ++ [name]).Nodup
    by_cases hc : containsTarget ctx.targets name
    · simpa [hc] using hnodup
    · have hnm : name ∉ ctx.targets_order := fun hmem => hc ((hiff name).mp hmem)
      simp only [hc, if_false, Bool.false_eq_true]
      rw [List.nodup_append]
      exact ⟨hnodup, List.nodup_singleton name, by
        intro a ha hb
        simp only [List.mem_singleton] at hb
        exact hnm (hb ▸ ha)⟩

/-- Witness for C8: re-registering "old" installs a fresh uncached entry and
does not duplicate the order; the order stays without duplicates. -/
theorem register_target_spec_witness :
    findTarget (register_target ctxC8 "old" stepC8 ["d"] false false).targets "old" =
      some { callable := stepC8, depends := ["d"], resolved_value := none,
             built_target := none } ∧
    (register_target ctxC8 "old" stepC8 ["d"] false false).targets_order =
      (if containsTarget ctxC8.targets "old" then ctxC8.targets_order
       else ctxC8.targets_order ++ ["old"]) ∧
    (register_target ctxC8 "old" stepC8 ["d"] false false).targets_order.Nodup :=
  by
  refine ⟨register_target_spec.1 ctxC8 "old" stepC8 ["d"] false false,
    register_target_spec.2.1 ctxC8 "old" stepC8 ["d"] false false,
    register_target_spec.2.2 ctxC8 "old" stepC8 ["d"] false false (by decide) ?_⟩
  intro m
  constructor
  · intro hm
    simp only [ctxC8, List.mem_singleton] at hm
    subst hm
    rfl
  · intro hm
    by_cases h : "old" = m
    · subst h
      simp [ctxC8]
    · simp [containsTarget, findTarget, ctxC8, h] at hm

/-- C9: running a resolved target with `RunMode.none` succeeds for every
process oracle, so no process is spawned; with `RunMode.path p` (when `p`
has a parent directory, the case claim C10 is about) it spawns `p` with the
working directory set to that parent, succeeds exactly when the exit status
is a success, and fails both on a non-zero exit and on a spawn error. -/
theorem resolved_target_run_spec :
    (∀ (os : ProcessOracle) (out : PathBuf),
       ResolvedTarget.run os { run_mode := RunMode.none, output_path := out } =
         some (Except.ok ())) ∧
    (∀ (os : ProcessOracle) (out p dir : PathBuf), p.parent = some dir →
       ResolvedTarget.run os { run_mode := RunMode.path p, output_path := out } =
         some (match os p dir with
           | Except.ok true => Except.ok ()
           | Except.ok false => Except.error (AnyhowError.message "cargo run failed")
           | Except.error e => Except.error (AnyhowError.ioError e))) := by
  constructor
  · intro os out
    rfl
  · intro os out p dir h
    cases hos : os p dir with
    | error e => simp [ResolvedTarget.run, h, hos]
    | ok b => cases b <;> simp [ResolvedTarget.run, h, hos]

/-- Witness for C9: a process exiting with a non-success status makes `run`
fail with the "cargo run failed" error. -/
theorem resolved_target_run_spec_witness :
    ResolvedTarget.run osC9
        { run_mode := RunMode.path { absolute := true, components := ["bin"] },
          output_path := { absolute := true, components := [] } } =
      some (Except.error (AnyhowError.message "cargo run failed")) :=
  resolved_target_run_spec.2 osC9 { absolute := true, components := [] }
    { absolute := true, components := ["bin"] } { absolute := true, components := [] } rfl

/-- C10: `run` with `RunMode.path p` unwraps `p.parent()`: when `p` has no
parent (modelled result `none`, for every oracle, so before any spawn
attempt) the call diverges by panicking instead of returning a `RunFailed`
error; whenever `p` has a parent the call returns normally. The filesystem
root is such a parentless path. -/
theorem resolved_target_run_no_parent_diverges :
    (∀ (os : ProcessOracle) (out p : PathBuf), p.parent = none →
       ResolvedTarget.run os { run_mode := RunMode.path p, output_path := out } = none) ∧
    (∀ (os : ProcessOracle) (out p dir : PathBuf), p.parent = some dir →
       ∃ r, ResolvedTarget.run os { run_mode := RunMode.path p, output_path := out } =
         some r) ∧
    PathBuf.parent { absolute := true, components := [] } = none := by
  refine ⟨?_, ?_, rfl⟩
  · intro os out p h
    simp [ResolvedTarget.run, h]
  · intro os out p dir h
    cases hos : os p dir with
    | error e =>
      exact ⟨Except.error (AnyhowError.ioError e), by simp [ResolvedTarget.run, h, hos]⟩
    | ok b =>
      cases b
      · exact ⟨Except.error (AnyhowError.message "cargo run failed"),
          by simp [ResolvedTarget.run, h, hos]⟩
      · exact ⟨Except.ok (), by simp [ResolvedTarget.run, h, hos]⟩

/-- Witness for C10: running a target whose path is the filesystem root
diverges, for a concrete oracle that would report success. -/
theorem resolved_target_run_no_parent_diverges_witness :
    ResolvedTarget.run osC10
        { run_mode := RunMode.path { absolute := true, components := [] },
          output_path := { absolute := true, components := [] } } = none :=
  resolved_target_run_no_parent_diverges.1 osC10
    { absolute := true, components := [] } { absolute := true, components := [] } rfl

/-! Claims about the resolution engine. -/

/-- Counterexample to C2 as stated. C2 claims a failing step is surfaced as
a `StepFailed(name, cause)` error carrying the target name. In the code the
step error is propagated by `?` completely unchanged: here two targets with
different names, whose steps fail with the same error `ValueError.other 7`,
make `resolve` return that very error value, identical for both names — so
the returned error is the bare cause and carries no target name. (The
non-caching half of C2 does hold: the returned context is `ctxC2` itself.) -/
theorem resolve_step_error_unwrapped_counterexample :
    starlark_resolve_target 1 ctxC2 "a" =
      some (Except.error (ValueError.other 7), ctxC2, [("a", [])]) ∧
    starlark_resolve_target 1 ctxC2 "b" =
      some (Except.error (ValueError.other 7), ctxC2, [("b", [])]) ∧
    ("a" : String) ≠ "b" :=
  ⟨rfl, rfl, by decide⟩

/-- C2 amended: when a target's step fails, `resolve` propagates the step's
own error to its caller unchanged (the underlying cause itself, with no
name-carrying wrapper), and stores no `resolved_value`: the returned
context is exactly the post-dependency context, with no write-back for the
target; in particular for a dependency-free target the whole context is
returned unchanged. -/
theorem resolve_step_error_propagates :
    (∀ fuel ctx name t args ctx1 tr e,
       findTarget ctx.targets name = some t →
       t.resolved_value = none →
       resolveDepsWith (starlark_resolve_target fuel) ctx t.depends =
         some (Except.ok args, ctx1, tr) →
       t.callable args = Except.error e →
       starlark_resolve_target (fuel + 1) ctx name =
         some (Except.error e, ctx1, tr ++ [(name, args)])) ∧
    (∀ fuel ctx name t e,
       findTarget ctx.targets name = some t →
       t.resolved_value = none →
       t.depends = [] →
       t.callable [] = Except.error e →
       starlark_resolve_target (fuel + 1) ctx name =
         some (Except.error e, ctx, [(name, [])])) := by
  constructor
  · intro fuel ctx name t args ctx1 tr e hf hrv hdeps hcall
    simp [starlark_resolve_target, hf, hrv, hdeps, hcall]
  · intro fuel ctx name t e hf hrv hdeps hcall
    simp [starlark_resolve_target, hf, hrv, hdeps, resolveDepsWith, hcall]

/-- Witness for C2 (amended): both conjuncts applied at the concrete failing
registry `ctxC2`. -/
theorem resolve_step_error_propagates_witness :
    starlark_resolve_target 1 ctxC2 "a" =
      some (Except.error (ValueError.other 7), ctxC2, [("a", [])]) ∧
    starlark_resolve_target 1 ctxC2 "b" =
      some (Except.error (ValueError.other 7), ctxC2, [("b", [])]) :=
  ⟨resolve_step_error_propagates.1 0 ctxC2 "a" ⟨stepFailC2, [], none, none⟩ [] ctxC2 []
      (ValueError.other 7) rfl rfl rfl rfl,
   resolve_step_error_propagates.2 0 ctxC2 "b" ⟨stepFailC2, [], none, none⟩
      (ValueError.other 7) rfl rfl rfl rfl⟩

/-- C5: for an uncached target, `resolve` first resolves the dependency
list in listed order and then invokes the step on the collected values as
the positional argument list in dependency order (first conjunct: the
uncached branch factors exactly through `resolveDepsWith`, which walks the
list left to right, and the step receives its output list verbatim); in
particular for A depending only on B, B's step runs before A's and B's
value is A's sole argument (second conjunct: the trace is B then A, and A's
argument list is exactly `[vb]`). -/
theorem resolve_dependency_order :
    (∀ fuel ctx name t args ctx1 tr v,
       findTarget ctx.targets name = some t →
       t.resolved_value = none →
       resolveDepsWith (starlark_resolve_target fuel) ctx t.depends =
         some (Except.ok args, ctx1, tr) →
       t.callable args = Except.ok v →
       starlark_resolve_target (fuel + 1) ctx name =
         some (Except.ok v,
           { ctx1 with targets := setResolvedValue ctx1.targets name v },
           tr ++ [(name, args)])) ∧
    (∀ fuel ctx a b fa fb va vb, a ≠ b →
       findTarget ctx.targets a = some ⟨fa, [b], none, none⟩ →
       findTarget ctx.targets b = some ⟨fb, [], none, none⟩ →
       fb [] = Except.ok vb →
       fa [vb] = Except.ok va →
       ∃ ctx2, starlark_resolve_target (fuel + 1 + 1) ctx a =
         some (Except.ok va, ctx2, [(b, []), (a, [vb])])) := by
  constructor
  · intro fuel ctx name t args ctx1 tr v hf hrv hdeps hcall
    simp [starlark_resolve_target, hf, hrv, hdeps, hcall]
  · intro fuel ctx a b fa fb va vb hab ha hb hfb hfa
    refine ⟨{ ctx with targets := setResolvedValue (setResolvedValue ctx.targets b vb) a va }, ?_⟩
    simp [starlark_resolve_target, ha, hb, resolveDepsWith, hfb, hfa]

/-- Witness for C5: resolving A→B concretely; the trace shows B's step ran
first and A's step got `[3]`, B's value, as its only argument. -/
theorem resolve_dependency_order_witness :
    ∃ ctx2, starlark_resolve_target 2 ctxC5 "a" =
      some (Except.ok 103, ctx2, [("b", []), ("a", [3])]) :=
  resolve_dependency_order.2 0 ctxC5 "a" "b" stepC5a stepC5b 103 3
    (by decide) rfl rfl rfl rfl

/-- C1: memoization. First conjunct: once `resolved_value` is set, `resolve`
returns the cached value immediately, with the context unchanged and no
callable invocation at all (empty trace). Second conjunct: for B a shared
dependency of A and C, resolving A and then C in the same session invokes
B's step exactly once — the combined invocation trace is
`[(B, []), (A, [vb]), (C, [vb])]`, with a single B event — and both A and C
receive the identical cached value `vb` as their argument. -/
theorem resolve_memoization :
    (∀ fuel ctx name t v,
       findTarget ctx.targets name = some t →
       t.resolved_value = some v →
       starlark_resolve_target (fuel + 1) ctx name = some (Except.ok v, ctx, [])) ∧
    (∀ fuel ctx a b c fa fb fc va vb vc,
       a ≠ b → b ≠ c → a ≠ c →
       findTarget ctx.targets a = some ⟨fa, [b], none, none⟩ →
       findTarget ctx.targets b = some ⟨fb, [], none, none⟩ →
       findTarget ctx.targets c = some ⟨fc, [b], none, none⟩ →
       fb [] = Except.ok vb →
       fa [vb] = Except.ok va →
       fc [vb] = Except.ok vc →
       ∃ ctx1 ctx2,
         starlark_resolve_target (fuel + 1 + 1) ctx a =
           some (Except.ok va, ctx1, [(b, []), (a, [vb])]) ∧
         starlark_resolve_target (fuel + 1 + 1) ctx1 c =
           some (Except.ok vc, ctx2, [(c, [vb])])) := by
  constructor
  · intro fuel ctx name t v hf hrv
    simp [starlark_resolve_target, hf, hrv]
  · intro fuel ctx a b c fa fb fc va vb vc hab hbc hac ha hb hc hfb hfa hfc
    have hfc1 : findTarget
        (setResolvedValue (setResolvedValue ctx.targets b vb) a va) c =
        some ⟨fc, [b], none, none⟩ := by
      rw [findTarget_setResolvedValue_ne _ _ _ _ (Ne.symm hac),
        findTarget_setResolvedValue_ne _ _ _ _ (Ne.symm hbc), hc]
    have hfb1 : findTarget
        (setResolvedValue (setResolvedValue ctx.targets b vb) a va) b =
        some ⟨fb, [], some vb, none⟩ := by
      rw [findTarget_setResolvedValue_ne _ _ _ _ (Ne.symm hab),
        findTarget_setResolvedValue_self, hb]
      rfl
    refine ⟨{ ctx with targets := setResolvedValue (setResolvedValue ctx.targets b vb) a va },
      { ctx with targets := setResolvedValue (setResolvedValue (setResolvedValue ctx.targets b vb) a va) c vc },
      ?_, ?_⟩
    · simp [starlark_resolve_target, ha, hb, resolveDepsWith, hfb, hfa]
    · simp [starlark_resolve_target, hfc1, hfb1, resolveDepsWith, hfc]

/-- Witness for C1: a cached target is returned without any invocation, and
in the shared-dependency registry `ctxC1` (A→B, C→B) the step of B appears
exactly once across resolving A and then C, both observing the value 5. -/
theorem resolve_memoization_witness :
    starlark_resolve_target 1 ctxC1cached "x" = some (Except.ok 9, ctxC1cached, []) ∧
    ∃ ctx1 ctx2,
      starlark_resolve_target 2 ctxC1 "a" =
        some (Except.ok 15, ctx1, [("b", []), ("a", [5])]) ∧
      starlark_resolve_target 2 ctx1 "c" =
        some (Except.ok 25, ctx2, [("c", [5])]) :=
  ⟨resolve_memoization.1 0 ctxC1cached "x" ⟨stepC1b, ["b"], some 9, none⟩ 9 rfl rfl,
   resolve_memoization.2 0 ctxC1 "a" "b" "c" stepC1a stepC1b stepC1c 15 5 25
     (by decide) (by decide) (by decide) rfl rfl rfl rfl rfl rfl⟩

/-- The loop of `starlark_resolve_targets` resolves every listed name: when
it returns overall success, every listed name ends up cached in the final
context. -/
theorem starlark_resolve_targets_go_ok_all_cached :
    ∀ names fuel ctx ctx' tr,
      starlark_resolve_targets_go fuel ctx names = some (Except.ok (), ctx', tr) →
      ∀ n ∈ names, ∃ t, findTarget ctx'.targets n = some t ∧
        ∃ v, t.resolved_value = some v := by
  intro names
  induction names with
  | nil =>
    intro fuel ctx ctx' tr h n hn
    simp at hn
  | cons m ms ih =>
    intro fuel ctx ctx' tr h n hn
    simp only [starlark_resolve_targets_go] at h
    split at h
    · exact Option.noConfusion h
    · simp at h
    · rename_i v ctx1 tr1 hm
      split at h
      · exact Option.noConfusion h
      · rename_i r2 ctx2 tr2 hms
        simp only [Option.some.injEq, Prod.mk.injEq] at h
        obtain ⟨rfl, rfl, -⟩ := h
        rcases List.mem_cons.mp hn with rfl | hn'
        · obtain ⟨t, hft, hrv⟩ := starlark_resolve_target_ok_cached fuel ctx n v ctx1 tr1 hm
          have hev := starlark_resolve_targets_go_entryEvolves ms fuel ctx1 _ _ _ hms n
          rw [hft] at hev
          exact ⟨t, entryEvolves_frozen hev hrv, v, hrv⟩
        · exact ih fuel ctx1 _ tr2 hms n hn'

/-- C7: `resolve_targets` runs `resolve` on each name of
`targets_to_resolve` in list order (first conjunct); when the head target
fails, the loop returns exactly that error with that trace, independent of
the remaining names, which are therefore never attempted (second conjunct);
when the head succeeds the loop continues on the tail, accumulating traces
(third conjunct); and overall success means every listed target was
resolved successfully, i.e. is cached in the final context (fourth
conjunct). -/
theorem resolve_targets_spec :
    (∀ fuel ctx, starlark_resolve_targets fuel ctx =
       starlark_resolve_targets_go fuel ctx (targets_to_resolve ctx)) ∧
    (∀ fuel ctx n ns e ctx1 tr,
       starlark_resolve_target fuel ctx n = some (Except.error e, ctx1, tr) →
       starlark_resolve_targets_go fuel ctx (n :: ns) =
         some (Except.error e, ctx1, tr)) ∧
    (∀ fuel ctx n ns v ctx1 tr r ctx2 tr2,
       starlark_resolve_target fuel ctx n = some (Except.ok v, ctx1, tr) →
       starlark_resolve_targets_go fuel ctx1 ns = some (r, ctx2, tr2) →
       starlark_resolve_targets_go fuel ctx (n :: ns) = some (r, ctx2, tr ++ tr2)) ∧
    (∀ fuel ctx names ctx' tr,
       starlark_resolve_targets_go fuel ctx names = some (Except.ok (), ctx', tr) →
       ∀ n ∈ names, ∃ t, findTarget ctx'.targets n = some t ∧
         ∃ v, t.resolved_value = some v) := by
  refine ⟨?_, ?_, ?_, ?_⟩
  · intro fuel ctx
    rfl
  · intro fuel ctx n ns e ctx1 tr h
    simp [starlark_resolve_targets_go, h]
  · intro fuel ctx n ns v ctx1 tr r ctx2 tr2 h1 h2
    simp [starlark_resolve_targets_go, h1, h2]
  · exact fun fuel ctx names => starlark_resolve_targets_go_ok_all_cached names fuel ctx

/-- Witness for C7: with the explicit list `["bad", "good"]` and a failing
head, the loop stops at the error without touching "good"; and a successful
run leaves the listed target cached. -/
theorem resolve_targets_spec_witness :
    starlark_resolve_targets_go 1 ctxC7 ["bad", "good"] =
      some (Except.error (ValueError.other 3), ctxC7, [("bad", [])]) ∧
    ∃ t, findTarget ({ ctxC7ok with targets := setResolvedValue ctxC7ok.targets "good" 4 }).targets "good" = some t ∧
      ∃ v, t.resolved_value = some v :=
  ⟨resolve_targets_spec.2.1 1 ctxC7 "bad" ["good"] (ValueError.other 3) ctxC7
      [("bad", [])] rfl,
   resolve_targets_spec.2.2.2 1 ctxC7ok ["good"]
     ({ ctxC7ok with targets := setResolvedValue ctxC7ok.targets "good" 4 })
     [("good", [])] rfl "good" (by decide)⟩

end StarlarkBuildTargets
